import Mathlib

/-!
Verification of the caracol collection daemon.

A shallow embedding of the core of caracol, a service that collects periodic
numeric samples from external query backends and stores them as an indexed
sequence per query definition.

Modelling conventions:
* Instants of time are unbounded integers counting nanoseconds since Go's zero
  time (`time.Time{}`), so the Go zero time is `0`.  Go's `time.Duration`
  arithmetic is 64-bit integer arithmetic on nanoseconds; the divisions
  performed by the code truncate toward zero, which is `Int.tdiv`.
* Go `string`-backed enumeration types (`QueryInterval`, `ApiType`,
  `AuthType`, `QueryType`, `SecretType`) are embedded as `String`.
* `float64` sample values are never computed with, only stored and compared,
  so they are embedded as `ℚ`.
* The SQL executed against PostgreSQL is embedded by its documented semantics:
  timestamp subtraction yields an interval held as a day count plus a
  remainder smaller than one day (both truncated toward zero), and
  `extract` reads a single field of that interval.
-/

/-- One hour in nanoseconds (`time.Hour`). -/
def nsPerHour : Int := 3600000000000

/-- One day in nanoseconds (`time.Hour * 24`). -/
def nsPerDay : Int := 24 * nsPerHour

/-- One week in nanoseconds (`time.Hour * 24 * 7`). -/
def nsPerWeek : Int := 7 * nsPerDay

/-- The `QueryInterval` constant `"hourly"` from model.go. -/
def queryIntervalHourly : String := "hourly"

/-- The `QueryInterval` constant `"daily"` from model.go. -/
def queryIntervalDaily : String := "daily"

/-- The `QueryInterval` constant `"weekly"` from model.go. -/
def queryIntervalWeekly : String := "weekly"

/-- The fields of the `Query` struct from model.go that the collection logic
reads.  `start` is the query's configured start instant, `interval` one of the
`QueryInterval` strings (any other string is an unsupported interval). -/
structure Query where
  id : Int
  name : String
  queryText : String
  interval : String
  start : Int
  apiType : String
  queryType : String
  authType : String
  providerID : Int
deriving DecidableEq, Repr

/-- Embedding of `Query.SeqTime` (model.go): the instant `seq` intervals after
the query start; the Go code returns the zero time (`0` here) for an
unsupported interval.  A Go `switch` on a string compares for equality in
order, embedded as a chain of conditionals. -/
def seqTime (q : Query) (seq : Int) : Int :=
  if q.interval = queryIntervalHourly then q.start + seq * nsPerHour
  else if q.interval = queryIntervalDaily then q.start + seq * nsPerDay
  else if q.interval = queryIntervalWeekly then q.start + seq * nsPerWeek
  else 0

/-- Embedding of `Query.SeqAfter` (model.go): `1 + sinceStart/unit` where the
Go division of `time.Duration` values truncates toward zero (`Int.tdiv`); the
Go code returns `-1` for an unsupported interval. -/
def seqAfter (q : Query) (t : Int) : Int :=
  if q.interval = queryIntervalHourly then 1 + (t - q.start).tdiv nsPerHour
  else if q.interval = queryIntervalDaily then 1 + (t - q.start).tdiv nsPerDay
  else if q.interval = queryIntervalWeekly then 1 + (t - q.start).tdiv nsPerWeek
  else -1

/-- Embedding of the window computation at the top of `DispatchQuery`
(dispatch.go): for the supported intervals, `fromTime = start + (seq-1)*unit`
and `toTime = fromTime + unit`; an unsupported interval makes `DispatchQuery`
fail, embedded as `none`. -/
def dispatchWindow (start : Int) (interval : String) (seq : Int) : Option (Int × Int) :=
  if interval = queryIntervalHourly then
    some (start + (seq - 1) * nsPerHour, start + (seq - 1) * nsPerHour + nsPerHour)
  else if interval = queryIntervalDaily then
    some (start + (seq - 1) * nsPerDay, start + (seq - 1) * nsPerDay + nsPerDay)
  else if interval = queryIntervalWeekly then
    some (start + (seq - 1) * nsPerWeek, start + (seq - 1) * nsPerWeek + nsPerWeek)
  else none

/-- The unit of each supported interval kind, used to state properties about
the three supported cases uniformly (hourly = 1h, daily = 24h, weekly = 168h). -/
def intervalUnit (interval : String) : Option Int :=
  if interval = queryIntervalHourly then some nsPerHour
  else if interval = queryIntervalDaily then some nsPerDay
  else if interval = queryIntervalWeekly then some nsPerWeek
  else none

/-- A row of the `collections` table
(migrations/002_create_sources_table.sql): primary key (query_id, seq) and a
float value. -/
structure CollectionRow where
  queryID : Int
  seq : Int
  value : ℚ
deriving DecidableEq, Repr

/-- The state of the `collections` table, as a list of rows. -/
abbrev Store := List CollectionRow

/-- Whether the store holds a row with primary key (qid, seq). -/
def storeHas (st : Store) (qid seq : Int) : Bool :=
  st.any fun r => r.queryID == qid && r.seq == seq

/-- Number of rows with primary key (qid, seq). -/
def countKey (st : Store) (qid seq : Int) : Nat :=
  (st.filter fun r => r.queryID == qid && r.seq == seq).length

/-- The database error produced when a plain insert hits the primary key
(query_id, seq) of the collections table. -/
inductive WriteError
  | uniqueViolation
deriving DecidableEq, Repr

/-- Embedding of `WriteCollectionSeq` (model.go).  Without force the function
executes a plain `insert into collections(query_id,seq,value)`, which fails
with a unique violation whenever a row with primary key (query_id, seq)
already exists — whatever the new value.  With force the statement carries
`on conflict(query_id,seq) do update set value=excluded.value`.  A failed
transaction is rolled back; the embedding returns an error and the caller
keeps the unchanged store. -/
def writeCollectionSeq (st : Store) (qid seq : Int) (v : ℚ) (force : Bool) :
    Except WriteError Store :=
  if storeHas st qid seq then
    if force then
      .ok (st.map fun r => if r.queryID == qid && r.seq == seq then ⟨qid, seq, v⟩ else r)
    else .error .uniqueViolation
  else .ok (st ++ [⟨qid, seq, v⟩])

/-- Day component of the interval produced by PostgreSQL timestamp
subtraction: whole days, truncated toward zero. -/
def pgIntervalDays (d : Int) : Int := d.tdiv nsPerDay

/-- Hour field of the interval produced by PostgreSQL timestamp subtraction:
the whole hours of what remains after removing the whole days, so
`extract('hour' from ...)` sees only the sub-day remainder. -/
def pgIntervalHourField (d : Int) : Int :=
  (d - nsPerDay * pgIntervalDays d).tdiv nsPerHour

/-- The `last` bound computed by the SQL inside `FindCollectionGaps`
(model.go): `extract('hour' from $2-start)` for hourly,
`extract('day' from $2-start)` for daily,
`extract('day' from $2-start)::integer/7` for weekly, and 0 for any other
interval. -/
def findGapsLast (start now : Int) (interval : String) : Int :=
  if interval = queryIntervalHourly then pgIntervalHourField (now - start)
  else if interval = queryIntervalDaily then pgIntervalDays (now - start)
  else if interval = queryIntervalWeekly then (pgIntervalDays (now - start)).tdiv 7
  else 0

/-- Embedding of the query in `FindCollectionGaps` (model.go):
`generate_series(0, last, 1)` left-joined against the rows of the query,
keeping the sequence numbers with no matching row, in series order. -/
def findCollectionGaps (start now : Int) (interval : String) (qid : Int)
    (st : Store) : List Int :=
  if findGapsLast start now interval < 0 then []
  else (List.map Int.ofNat
      (List.range ((findGapsLast start now interval).toNat + 1))).filter
    (fun s => !storeHas st qid s)

/-- Timestamp of 2024-01-01T00:00:00Z, in nanoseconds since the Go zero
time (62135596800s from the zero time to the Unix epoch, plus 1704067200s
from the epoch). -/
def t20240101 : Int := 63839664000000000000

/-- The `DataPoint` struct from model.go.  Backends return raw points with
`seq` left at its zero value; Dispatch assigns the requested seq to the point
it selects. -/
structure DataPoint where
  seq : Int
  time : Int
  value : ℚ
deriving DecidableEq, Repr

/-- Embedding of the selection loop at the end of `DispatchQuery`
(dispatch.go): scan the returned points in order and, at the first point
whose timestamp equals the window's closing edge `toTime`, return a
singleton list carrying the requested seq, that timestamp and the point's
value; if no point matches, return the empty list with no error — a miss. -/
def selectPoints (seq : Int) (toTime : Int) : List DataPoint → List DataPoint
  | [] => []
  | pt :: rest =>
    if pt.time = toTime then [⟨seq, pt.time, pt.value⟩]
    else selectPoints seq toTime rest

/-- The `ApiType` constant `"grafanacloud"`. -/
def apiTypeGrafanaCloud : String := "grafanacloud"

/-- The `ApiType` constant `"elasticsearch"`. -/
def apiTypeElasticSearch : String := "elasticsearch"

/-- The `ApiType` constant `"cloudwatch"`, named in dispatch.go's switch. -/
def apiTypeCloudWatch : String := "cloudwatch"

/-- The `QueryType` constant `"elasticsearch_aggregate"`. -/
def queryTypeElasticSearchAggregate : String := "elasticsearch_aggregate"

/-- Embedding of the querier-selection switch of `DispatchQuery`
(dispatch.go): grafanacloud and cloudwatch accept any query type,
elasticsearch only the elasticsearch_aggregate query type, and any other api
type is an unsupported datasource.  Constructor failures of the concrete
queriers are outside the model; the backend call is a parameter below. -/
def querierSupported (apiType queryType : String) : Bool :=
  if apiType = apiTypeGrafanaCloud then true
  else if apiType = apiTypeElasticSearch then
    queryType = queryTypeElasticSearchAggregate
  else if apiType = apiTypeCloudWatch then true
  else false

/-- The failure cases of `DispatchQuery` (dispatch.go). -/
inductive DispatchError
  | invalidInterval
  | unsupportedBackend
  | backendFailure
deriving DecidableEq, Repr

/-- Embedding of `DispatchQuery` (dispatch.go), with the backend's reply to
the window query passed as `raw`: compute the window (unsupported interval
fails), select a querier (unsupported backend fails), run the backend (its
error propagates), then select the point closing the window. -/
def dispatchQuery (q : Query) (seq : Int)
    (raw : Except DispatchError (List DataPoint)) :
    Except DispatchError (List DataPoint) :=
  match dispatchWindow q.start q.interval seq with
  | none => .error .invalidInterval
  | some (_, toTime) =>
    if querierSupported q.apiType q.queryType then
      match raw with
      | .error _ => .error .backendFailure
      | .ok points => .ok (selectPoints seq toTime points)
    else .error .unsupportedBackend

/-- Outcome of a `DispatchQuery` call as seen by the monitor loop: either an
error or a list of points. -/
inductive DispatchOutcome
  | failed
  | returned (points : List DataPoint)
deriving DecidableEq, Repr

/-- The observable result of one `MonitorQuery` pass (daemon.go): the final
store, the number of soft errors counted (`errsEncountered`), and the gap
sequences the loop reached, in order. -/
structure PassResult where
  store : Store
  errs : Nat
  attempted : List Int
deriving DecidableEq, Repr

/-- Embedding of the gap-filling loop of `QueryMonitor.MonitorQuery`
(daemon.go): for each gap seq in order — dispatch; on a dispatch error, an
empty result or more than one point, count a soft error and continue; on a
single point write it with force=false, and on a storage error likewise count
a soft error and continue with the store unchanged.  No outcome ends the
loop early. -/
def monitorPass (qid : Int) (dispatch : Int → DispatchOutcome) (st : Store) :
    List Int → PassResult
  | [] => ⟨st, 0, []⟩
  | seq :: rest =>
    match dispatch seq with
    | .failed =>
      let r := monitorPass qid dispatch st rest
      ⟨r.store, r.errs + 1, seq :: r.attempted⟩
    | .returned [] =>
      let r := monitorPass qid dispatch st rest
      ⟨r.store, r.errs + 1, seq :: r.attempted⟩
    | .returned [p] =>
      match writeCollectionSeq st qid p.seq p.value false with
      | .error _ =>
        let r := monitorPass qid dispatch st rest
        ⟨r.store, r.errs + 1, seq :: r.attempted⟩
      | .ok st' =>
        let r := monitorPass qid dispatch st' rest
        ⟨r.store, r.errs, seq :: r.attempted⟩
    | .returned (_ :: _ :: _) =>
      let r := monitorPass qid dispatch st rest
      ⟨r.store, r.errs + 1, seq :: r.attempted⟩

/-- The `AuthType` constant `"bearer_token"`. -/
def authTypeBearerToken : String := "bearer_token"

/-- The `AuthType` constant `"basic_auth"`. -/
def authTypeBasicAuth : String := "basic_auth"

/-- The `SecretType` constant `"bearer_token"`. -/
def secretTypeBearerToken : String := "bearer_token"

/-- The `SecretType` constant `"username"`. -/
def secretTypeUsername : String := "username"

/-- The `SecretType` constant `"password"`. -/
def secretTypePassword : String := "password"

/-- The environment variable name prefix `envPrefix` from main.go. -/
def envPfx : String := "CARACOL_"

/-- Embedding of `SecretEnvVarNames` (secrets.go): the environment variable
name holding each logical secret of a provider id under an auth kind; an
unsupported auth kind fails. -/
def secretEnvVarNames (id : Int) (authType : String) :
    Except String (List (String × String)) :=
  if authType = authTypeBearerToken then
    .ok [(secretTypeBearerToken, envPfx ++ "PROVIDER" ++ toString id ++ "_BEARER_TOKEN")]
  else if authType = authTypeBasicAuth then
    .ok [(secretTypeUsername, envPfx ++ "PROVIDER" ++ toString id ++ "_USERNAME"),
      (secretTypePassword, envPfx ++ "PROVIDER" ++ toString id ++ "_PASSWORD")]
  else .error ("unsupported auth type: " ++ authType)

/-- Look up each named environment variable in turn; a missing variable fails
the whole resolution (the Go loop returns on the first missing entry; Go map
order is unspecified, the list order stands in for it). -/
def resolveSecrets (env : String → Option String) :
    List (String × String) → Except String (List (String × String))
  | [] => .ok []
  | (ty, name) :: rest =>
    match env name with
    | none => .error ("missing environment variable: " ++ name)
    | some v =>
      match resolveSecrets env rest with
      | .error e => .error e
      | .ok s => .ok ((ty, v) :: s)

/-- The `SecretStore.secrets` cache: resolved secret maps keyed by provider
id — the id alone, not the (id, auth kind) pair. -/
abbrev SecretCache := List (Int × List (String × String))

/-- Embedding of `SecretStore.Secrets` (secrets.go): a cache hit on the
provider id returns the cached map, whatever auth kind the call names; on a
miss the variables named by (id, auth kind) are resolved from the
environment and, only on full success, cached under the id. -/
def secretsCall (cache : SecretCache) (env : String → Option String) (id : Int)
    (authType : String) : Except String (List (String × String)) × SecretCache :=
  match cache.lookup id with
  | some s => (.ok s, cache)
  | none =>
    match secretEnvVarNames id authType with
    | .error e => (.error e, cache)
    | .ok vars =>
      match resolveSecrets env vars with
      | .error e => (.error e, cache)
      | .ok s => (.ok s, (id, s) :: cache)

/-- The per-pass observable state of `QueryCollector.monitorActiveQueries`
(daemon.go): the secret cache, the registry of query ids currently holding a
live monitor (`qc.monitors`), the ids whose monitor was launched, and the
ids skipped for secret-resolution failures. -/
structure CollectorState where
  cache : SecretCache
  registry : List Int
  launched : List Int
  skipped : List Int
deriving DecidableEq, Repr

/-- One query's step of the collector pass (daemon.go): resolve the
provider's secrets — a failure skips the query and changes nothing else —
then `LoadOrStore` the query id in the registry: if already present nothing
happens, otherwise the id is inserted and its monitor launched. -/
def collectorStep (env : String → Option String) (s : CollectorState) (q : Query) :
    CollectorState :=
  match secretsCall s.cache env q.providerID q.authType with
  | (.error _, cache') => ⟨cache', s.registry, s.launched, s.skipped ++ [q.id]⟩
  | (.ok _, cache') =>
    if s.registry.contains q.id then ⟨cache', s.registry, s.launched, s.skipped⟩
    else ⟨cache', q.id :: s.registry, s.launched ++ [q.id], s.skipped⟩

/-- Embedding of the loop of `QueryCollector.monitorActiveQueries`
(daemon.go): process every active query in order. -/
def collectorPass (env : String → Option String) (s : CollectorState) :
    List Query → CollectorState
  | [] => s
  | q :: qs => collectorPass env (collectorStep env s q) qs

/-- A concrete process environment: only provider 7's bearer-token variable
is set. -/
def env0 : String → Option String :=
  fun n => if n = "CARACOL_PROVIDER7_BEARER_TOKEN" then some "tok" else none

/-- The atomic registry operations on `qc.monitors` (daemon.go), which
`sync.Map` makes individually atomic: `LoadOrStore` of a query id inserts
only when the id is absent (and only then is the monitor go-routine
launched) and is a no-op when present; the deferred `Delete` runs when a
monitor exits.  Any concurrent interleaving of collector passes and monitor
exits is a sequence of these steps, and the registry contents are exactly
the live monitors. -/
inductive RegistryStep : List Int → List Int → Prop
  | insert (id : Int) (reg : List Int) (h : id ∉ reg) : RegistryStep reg (id :: reg)
  | loadHit (id : Int) (reg : List Int) (h : id ∈ reg) : RegistryStep reg reg
  | monitorExit (id : Int) (reg : List Int) : RegistryStep reg (reg.erase id)

theorem intervalUnit_pos {interval : String} {u : Int} (h : intervalUnit interval = some u) :
    0 < u := by
  unfold intervalUnit at h
  split_ifs at h <;> simp_all [nsPerHour, nsPerDay, nsPerWeek] <;> omega

theorem seqTime_eq_of_unit {q : Query} {u : Int} (h : intervalUnit q.interval = some u)
    (seq : Int) : seqTime q seq = q.start + seq * u := by
  unfold intervalUnit at h
  unfold seqTime
  split_ifs at h <;> simp_all

theorem seqAfter_eq_of_unit {q : Query} {u : Int} (h : intervalUnit q.interval = some u)
    (t : Int) : seqAfter q t = 1 + (t - q.start).tdiv u := by
  unfold intervalUnit at h
  unfold seqAfter
  split_ifs at h <;> simp_all

theorem dispatchWindow_eq_of_unit {interval : String} {u : Int}
    (h : intervalUnit interval = some u) (start seq : Int) :
    dispatchWindow start interval seq =
      some (start + (seq - 1) * u, start + (seq - 1) * u + u) := by
  unfold intervalUnit at h
  unfold dispatchWindow
  split_ifs at h <;> simp_all

/-- C3: for every start, every supported interval kind (hourly = 1h,
daily = 24h, weekly = 168h) and every seq ≥ 1, the dispatch window for seq is
from = start + (seq−1)·unit and to = from + unit: a half-open interval of
exactly one unit length, and the windows of consecutive sequence numbers are
back-to-back and non-overlapping. -/
theorem C3_dispatch_window_unit_length (start : Int) (interval : String) (u seq : Int)
    (hu : intervalUnit interval = some u) (_hseq : 1 ≤ seq) :
    dispatchWindow start interval seq =
        some (start + (seq - 1) * u, start + (seq - 1) * u + u) ∧
    (start + (seq - 1) * u + u) - (start + (seq - 1) * u) = u ∧
    dispatchWindow start interval (seq + 1) =
        some (start + (seq - 1) * u + u, start + (seq - 1) * u + u + u) ∧
    (∀ x : Int, start + (seq - 1) * u ≤ x → x < start + (seq - 1) * u + u →
        ¬(start + (seq - 1) * u + u ≤ x)) ∧
    intervalUnit queryIntervalHourly = some nsPerHour ∧
    intervalUnit queryIntervalDaily = some (24 * nsPerHour) ∧
    intervalUnit queryIntervalWeekly = some (168 * nsPerHour) := by
  have hnext := dispatchWindow_eq_of_unit hu start (seq + 1)
  have harith : start + (seq + 1 - 1) * u = start + (seq - 1) * u + u := by ring
  refine ⟨dispatchWindow_eq_of_unit hu start seq, by ring, ?_, ?_, by decide, by decide,
    by decide⟩
  · rw [hnext, harith]
  · intro x _ h2 h3
    omega

/-- Witness for C3 at start 0, hourly interval, seq 1: the window is
[0, 1 hour). -/
theorem C3_dispatch_window_unit_length_witness :
    dispatchWindow 0 queryIntervalHourly 1 = some (0, nsPerHour) := by
  have h := (C3_dispatch_window_unit_length 0 queryIntervalHourly nsPerHour 1
    (by decide) (by decide)).1
  simpa using h

/-- C4 (amended): for every supported interval kind and every time t with
t ≥ start, SeqAfter(t) equals 1 + floor((t − start)/unit), and it is the
smallest seq ≥ 1 whose window closes strictly after t; on an interval
boundary this is one more than the seq whose window closes exactly at t. -/
theorem C4_seqAfter_characterisation (q : Query) (t u : Int)
    (hu : intervalUnit q.interval = some u) (ht : q.start ≤ t) :
    seqAfter q t = 1 + (t - q.start).fdiv u ∧
    IsLeast {s : Int | 1 ≤ s ∧ t < q.start + s * u} (seqAfter q t) := by
  have hupos : 0 < u := intervalUnit_pos hu
  have hd : 0 ≤ t - q.start := by omega
  have heq : seqAfter q t = 1 + (t - q.start) / u := by
    rw [seqAfter_eq_of_unit hu, Int.tdiv_eq_ediv hd (Int.le_of_lt hupos)]
  constructor
  · rw [heq, Int.fdiv_eq_ediv _ (Int.le_of_lt hupos)]
  · constructor
    · refine ⟨by have := Int.ediv_nonneg hd (Int.le_of_lt hupos); omega, ?_⟩
      have hlt := Int.lt_ediv_add_one_mul_self (t - q.start) hupos
      rw [heq]
      nlinarith [hlt]
    · rintro s ⟨hs1, hs2⟩
      have : (t - q.start) < s * u := by omega
      have := (Int.ediv_lt_iff_lt_mul hupos).mpr this
      omega

/-- Witness for C4 at an hourly query starting at 0 with t = 90 minutes:
SeqAfter is 2 = 1 + floor(1.5h/1h), the least seq whose window closes
strictly after t. -/
theorem C4_seqAfter_characterisation_witness :
    seqAfter ⟨1, "q", "", "hourly", 0, "", "", "", 0⟩ (5400000000000) =
      1 + ((5400000000000 : Int) - 0).fdiv nsPerHour := by
  exact (C4_seqAfter_characterisation ⟨1, "q", "", "hourly", 0, "", "", "", 0⟩
    5400000000000 nsPerHour (by decide) (by decide)).1

/-- Counterexample for C4 as stated: for an hourly query starting at 0 and
t = 1 hour — an interval boundary — the seq whose window closes exactly at t
is 1 (SeqTime 1 = t yet SeqTime 2 ≠ t), but SeqAfter returns 2, not 1. -/
theorem C4_seqAfter_boundary_counterexample :
    seqAfter ⟨1, "q", "", "hourly", 0, "", "", "", 0⟩ nsPerHour = 2 ∧
    seqTime ⟨1, "q", "", "hourly", 0, "", "", "", 0⟩ 1 = nsPerHour ∧
    seqTime ⟨1, "q", "", "hourly", 0, "", "", "", 0⟩ 2 ≠ nsPerHour := by
  refine ⟨by decide, by decide, by decide⟩

theorem storeHas_false_iff (st : Store) (qid seq : Int) :
    storeHas st qid seq = false ↔ ∀ r ∈ st, ¬(r.queryID = qid ∧ r.seq = seq) := by
  simp [storeHas, List.any_eq_true, not_and]

theorem countKey_append (a b : Store) (qid seq : Int) :
    countKey (a ++ b) qid seq = countKey a qid seq + countKey b qid seq := by
  simp [countKey, List.filter_append]

theorem countKey_eq_zero_of_not_has {st : Store} {qid seq : Int}
    (h : storeHas st qid seq = false) : countKey st qid seq = 0 := by
  rw [storeHas_false_iff] at h
  simp only [countKey, List.length_eq_zero, List.filter_eq_nil_iff]
  intro r hr
  simp only [Bool.and_eq_true, beq_iff_eq]
  intro hb
  exact h r hr ⟨hb.1, hb.2⟩

theorem storeHas_append_single (st : Store) (qid seq : Int) (v : ℚ) :
    storeHas (st ++ [⟨qid, seq, v⟩]) qid seq = true := by
  simp [storeHas, List.any_eq_true]

theorem map_force_eq_of_not_has (qid seq : Int) (v : ℚ) (st : Store) :
    storeHas st qid seq = false →
    st.map (fun r => if r.queryID == qid && r.seq == seq then ⟨qid, seq, v⟩ else r) = st := by
  induction st with
  | nil => intro _; rfl
  | cons r rs ih =>
    intro h
    simp only [storeHas, List.any_cons, Bool.or_eq_false_iff] at h
    have h2 : storeHas rs qid seq = false := h.2
    rw [List.map_cons, ih h2, if_neg (by simp [h.1])]

/-- C2 (amended): with force=false, the first UpsertCollectedValue call for an
absent (query id, seq) succeeds and leaves exactly one stored row for that
key; a second call for the same key fails with a uniqueness conflict — whether
the new value is identical or different — and the transaction rolls back,
leaving the store unchanged; only a force=true call overwrites the stored
value, still leaving exactly one row. -/
theorem C2_write_once_unique_violation (st : Store) (qid seq : Int) (v v' : ℚ)
    (h : storeHas st qid seq = false) :
    writeCollectionSeq st qid seq v false = .ok (st ++ [⟨qid, seq, v⟩]) ∧
    countKey (st ++ [⟨qid, seq, v⟩]) qid seq = 1 ∧
    writeCollectionSeq (st ++ [⟨qid, seq, v⟩]) qid seq v false = .error .uniqueViolation ∧
    writeCollectionSeq (st ++ [⟨qid, seq, v⟩]) qid seq v' false = .error .uniqueViolation ∧
    writeCollectionSeq (st ++ [⟨qid, seq, v⟩]) qid seq v' true =
      .ok (st ++ [⟨qid, seq, v'⟩]) ∧
    countKey (st ++ [⟨qid, seq, v'⟩]) qid seq = 1 := by
  have hhas := storeHas_append_single st qid seq v
  refine ⟨by simp [writeCollectionSeq, h], ?_,
    by simp [writeCollectionSeq, hhas], by simp [writeCollectionSeq, hhas], ?_, ?_⟩
  · rw [countKey_append, countKey_eq_zero_of_not_has h]
    simp [countKey]
  · simp only [writeCollectionSeq, hhas, if_true, List.map_append,
      map_force_eq_of_not_has qid seq v' st h]
    simp
  · rw [countKey_append, countKey_eq_zero_of_not_has h]
    simp [countKey]

/-- Witness for the amended C2 at an empty store: the first write for
(query 2, seq 3) stores the row, the second write for the same key with a
different value hits the unique violation. -/
theorem C2_write_once_unique_violation_witness :
    writeCollectionSeq [] 2 3 7 false = .ok [⟨2, 3, 7⟩] ∧
    writeCollectionSeq [⟨2, 3, 7⟩] 2 3 9 false = .error .uniqueViolation := by
  have h := C2_write_once_unique_violation [] 2 3 7 9 rfl
  exact ⟨by simpa using h.1, by simpa using h.2.2.2.1⟩

/-- Counterexample for C2 as stated: two calls with the identical
(query id, seq, value) = (1, 0, 5) and force=false do not make the second call
succeed — it errors with a uniqueness conflict even though the value is the
same as the stored one, contradicting "errors with Conflict only if the value
differs". -/
theorem C2_identical_value_conflict_counterexample :
    writeCollectionSeq [] 1 0 5 false = .ok [⟨1, 0, 5⟩] ∧
    writeCollectionSeq [⟨1, 0, 5⟩] 1 0 5 false = .error .uniqueViolation :=
  ⟨rfl, rfl⟩

theorem tdiv_tdiv_of_nonneg {d a b : Int} (hd : 0 ≤ d) (ha : 0 ≤ a) (hb : 0 ≤ b) :
    (d.tdiv a).tdiv b = d.tdiv (a * b) := by
  obtain ⟨n, rfl⟩ := Int.eq_ofNat_of_zero_le hd
  obtain ⟨m, rfl⟩ := Int.eq_ofNat_of_zero_le ha
  obtain ⟨k, rfl⟩ := Int.eq_ofNat_of_zero_le hb
  show Int.ofNat (n / m / k) = Int.ofNat (n / (m * k))
  rw [Nat.div_div_eq_div_mul]

theorem findCollectionGaps_sorted (start now : Int) (interval : String) (qid : Int)
    (st : Store) : List.Sorted (· < ·) (findCollectionGaps start now interval qid st) := by
  unfold findCollectionGaps
  split
  · exact List.sorted_nil
  · refine List.Pairwise.filter _ ?_
    refine List.Pairwise.map _ ?_ (List.sorted_lt_range _)
    intro a b h
    exact Int.ofNat_lt.mpr h

theorem findCollectionGaps_mem (start now : Int) (interval : String) (qid : Int)
    (st : Store) (s : Int) :
    s ∈ findCollectionGaps start now interval qid st ↔
      0 ≤ s ∧ s ≤ findGapsLast start now interval ∧ storeHas st qid s = false := by
  unfold findCollectionGaps
  split
  · next hlt =>
    simp only [List.not_mem_nil, false_iff, not_and]
    intro h1 h2
    omega
  · next hge =>
    simp only [List.mem_filter, List.mem_map, List.mem_range, Bool.not_eq_eq_eq_not,
      Bool.not_true, Int.ofNat_eq_coe]
    constructor
    · rintro ⟨⟨k, hk, rfl⟩, hst⟩
      refine ⟨by omega, by omega, hst⟩
    · rintro ⟨h0, hle, hst⟩
      exact ⟨⟨s.toNat, by omega, by omega⟩, hst⟩

theorem findGapsLast_daily (start now : Int) :
    findGapsLast start now queryIntervalDaily = (now - start).tdiv nsPerDay := by
  simp [findGapsLast, pgIntervalDays, queryIntervalDaily, queryIntervalHourly]

theorem findGapsLast_weekly_eq (start now : Int) (h : start ≤ now) :
    findGapsLast start now queryIntervalWeekly = (now - start).tdiv nsPerWeek := by
  have h1 : findGapsLast start now queryIntervalWeekly =
      ((now - start).tdiv nsPerDay).tdiv 7 := by
    simp [findGapsLast, pgIntervalDays, queryIntervalWeekly, queryIntervalHourly,
      queryIntervalDaily]
  rw [h1, tdiv_tdiv_of_nonneg (by omega) (by norm_num [nsPerDay, nsPerHour]) (by norm_num)]
  have h2 : nsPerDay * 7 = nsPerWeek := by norm_num [nsPerDay, nsPerWeek, nsPerHour]
  rw [h2]

theorem findGapsLast_hourly_eq (start now : Int) (h : start ≤ now)
    (hlt : now - start < nsPerDay) :
    findGapsLast start now queryIntervalHourly = (now - start).tdiv nsPerHour := by
  simp only [findGapsLast, queryIntervalHourly, pgIntervalHourField, pgIntervalDays]
  norm_num
  have hz : (now - start).tdiv nsPerDay = 0 := by
    rw [Int.tdiv_eq_ediv (by omega) (by norm_num [nsPerDay, nsPerHour])]
    exact Int.ediv_eq_zero_of_lt (by omega) hlt
  rw [hz]
  norm_num

/-- C1 (amended): FindCollectionGaps returns, in ascending order, exactly the
unstored sequence numbers in the closed range [0, last], and the empty list
when last is negative, where last is the bound the SQL computes:
SeqAfter(now) − 1 for daily and weekly queries whenever now ≥ start, but for
hourly queries only while now − start < 24h (in general the hourly bound is
the hour field of the PostgreSQL interval now − start, not the total hour
count).  For the hourly example (start 2024-01-01T00:00:00Z, now
2024-01-01T03:00:00Z) it returns [0, 1, 2, 3] on an empty store, and
[0, 2, 3] once seq 1 is stored. -/
theorem C1_findGaps_range_minus_stored :
    (∀ start now interval qid st,
      List.Sorted (· < ·) (findCollectionGaps start now interval qid st) ∧
      (∀ s : Int, s ∈ findCollectionGaps start now interval qid st ↔
        0 ≤ s ∧ s ≤ findGapsLast start now interval ∧ storeHas st qid s = false) ∧
      (findGapsLast start now interval < 0 →
        findCollectionGaps start now interval qid st = [])) ∧
    (∀ (q : Query) (now : Int), q.start ≤ now →
      ((q.interval = queryIntervalDaily ∨ q.interval = queryIntervalWeekly) →
        findGapsLast q.start now q.interval = seqAfter q now - 1) ∧
      (q.interval = queryIntervalHourly → now - q.start < nsPerDay →
        findGapsLast q.start now q.interval = seqAfter q now - 1)) ∧
    findCollectionGaps t20240101 (t20240101 + 3 * nsPerHour) queryIntervalHourly 1 [] =
      [0, 1, 2, 3] ∧
    findCollectionGaps t20240101 (t20240101 + 3 * nsPerHour) queryIntervalHourly 1
      [⟨1, 1, 5⟩] = [0, 2, 3] := by
  refine ⟨?_, ?_, by decide, by decide⟩
  · intro start now interval qid st
    refine ⟨findCollectionGaps_sorted start now interval qid st,
      findCollectionGaps_mem start now interval qid st, ?_⟩
    intro hneg
    unfold findCollectionGaps
    rw [if_pos hneg]
  · intro q now h
    constructor
    · rintro (hd | hw)
      · rw [hd, findGapsLast_daily, @seqAfter_eq_of_unit q nsPerDay
          (by simp [intervalUnit, hd, queryIntervalDaily, queryIntervalHourly]) now]
        ring
      · rw [hw, findGapsLast_weekly_eq _ _ (by simpa using h), @seqAfter_eq_of_unit q nsPerWeek
          (by simp [intervalUnit, hw, queryIntervalWeekly, queryIntervalHourly,
            queryIntervalDaily]) now]
        ring
    · intro hh hlt
      rw [hh, findGapsLast_hourly_eq _ _ (by simpa using h) (by simpa using hlt),
        @seqAfter_eq_of_unit q nsPerHour (by simp [intervalUnit, hh, queryIntervalHourly]) now]
      ring

/-- Counterexample for C1 as stated: at the claim's own example — an hourly
query starting 2024-01-01T00:00:00Z, now = 2024-01-01T03:00:00Z, empty
store — the code enumerates generate_series(0, 3) and returns [0, 1, 2, 3],
not the claimed [0, 1, 2] (and SeqAfter(now) − 1 = 3, so the claim's range
[0, SeqAfter(now) − 1] itself contains 3). -/
theorem C1_findGaps_example_counterexample :
    findCollectionGaps t20240101 (t20240101 + 3 * nsPerHour) queryIntervalHourly 1 [] ≠
      [0, 1, 2] ∧
    findCollectionGaps t20240101 (t20240101 + 3 * nsPerHour) queryIntervalHourly 1 [] =
      [0, 1, 2, 3] ∧
    seqAfter ⟨1, "q", "", "hourly", t20240101, "", "", "", 0⟩ (t20240101 + 3 * nsPerHour) - 1 =
      3 := by
  refine ⟨by decide, by decide, by decide⟩

/-- Witness for the amended C1: sequence 0 is a gap of the hourly example, and
for a daily query two days after its start the SQL bound coincides with
SeqAfter(now) − 1. -/
theorem C1_findGaps_range_minus_stored_witness :
    ((0 : Int) ∈ findCollectionGaps 0 (3 * nsPerHour) queryIntervalHourly 1 []) ∧
    findGapsLast 0 (2 * nsPerDay) queryIntervalDaily =
      seqAfter ⟨1, "q", "", "daily", 0, "", "", "", 0⟩ (2 * nsPerDay) - 1 := by
  have h := C1_findGaps_range_minus_stored
  refine ⟨?_, ?_⟩
  · exact ((h.1 0 (3 * nsPerHour) queryIntervalHourly 1 []).2.1 0).mpr (by decide)
  · exact (h.2.1 ⟨1, "q", "", "daily", 0, "", "", "", 0⟩ (2 * nsPerDay) (by decide)).1
      (Or.inl rfl)

theorem selectPoints_shape (seq toTime : Int) (pts : List DataPoint) :
    selectPoints seq toTime pts = [] ∨
    ∃ v, selectPoints seq toTime pts = [⟨seq, toTime, v⟩] := by
  induction pts with
  | nil => exact Or.inl rfl
  | cons pt rest ih =>
    by_cases hpt : pt.time = toTime
    · exact Or.inr ⟨pt.value, by simp [selectPoints, hpt]⟩
    · simpa [selectPoints, hpt] using ih

theorem selectPoints_eq_nil (seq toTime : Int) (pts : List DataPoint)
    (h : ∀ pt ∈ pts, pt.time ≠ toTime) : selectPoints seq toTime pts = [] := by
  induction pts with
  | nil => rfl
  | cons pt rest ih =>
    have hpt : pt.time ≠ toTime := h pt (List.mem_cons_self pt rest)
    simpa [selectPoints, hpt] using ih fun x hx => h x (List.mem_cons_of_mem pt hx)

/-- C5: for every list of raw points the backend returns for a window, the
selection keeps exactly the point whose timestamp equals the window's closing
edge and discards all others; when no returned point matches the closing edge
exactly, the result is the empty list and DispatchQuery still returns without
error — a miss, not an error. -/
theorem C5_dispatch_selects_closing_edge :
    (∀ (seq toTime : Int) (pts : List DataPoint) (p : DataPoint),
      pts.filter (fun pt => pt.time == toTime) = [p] →
      selectPoints seq toTime pts = [⟨seq, toTime, p.value⟩]) ∧
    (∀ (seq toTime : Int) (pts : List DataPoint),
      (∀ pt ∈ pts, pt.time ≠ toTime) →
      selectPoints seq toTime pts = []) ∧
    (∀ (q : Query) (seq f t : Int) (points : List DataPoint),
      dispatchWindow q.start q.interval seq = some (f, t) →
      querierSupported q.apiType q.queryType = true →
      (∀ pt ∈ points, pt.time ≠ t) →
      dispatchQuery q seq (.ok points) = .ok []) := by
  refine ⟨?_, ?_, ?_⟩
  · intro seq toTime pts
    induction pts with
    | nil => intro p h; simp at h
    | cons pt rest ih =>
      intro p h
      by_cases hpt : pt.time = toTime
      · rw [List.filter_cons_of_pos (by simpa using hpt)] at h
        have hp : pt = p := by
          have := congrArg (fun l => l.head?) h
          simpa using this
        subst hp
        simp [selectPoints, hpt]
      · rw [List.filter_cons_of_neg (by simpa using hpt)] at h
        simpa [selectPoints, hpt] using ih p h
  · intro seq toTime pts h
    exact selectPoints_eq_nil seq toTime pts h
  · intro q seq f t points hw hsupp hmiss
    simp [dispatchQuery, hw, hsupp, selectPoints_eq_nil seq t points hmiss]

/-- Witness for C5: against a backend returning a window-end point, a
window-start point and an unrelated point, only the window-end point is
selected (normalized to the requested seq 3), and a backend returning only
non-matching points yields the empty list. -/
theorem C5_dispatch_selects_closing_edge_witness :
    selectPoints 3 nsPerHour [⟨0, nsPerHour, 42⟩, ⟨0, 0, 7⟩, ⟨0, 5, 9⟩] =
      [⟨3, nsPerHour, 42⟩] ∧
    selectPoints 3 nsPerHour [⟨0, 0, 7⟩] = [] := by
  have h := C5_dispatch_selects_closing_edge
  exact ⟨h.1 3 nsPerHour [⟨0, nsPerHour, 42⟩, ⟨0, 0, 7⟩, ⟨0, 5, 9⟩] ⟨0, nsPerHour, 42⟩
      (by decide),
    h.2.1 3 nsPerHour [⟨0, 0, 7⟩] (by decide)⟩

/-- C10: whenever DispatchQuery returns without error, the returned list
contains at most one data point, and when it contains exactly one, that
point's seq equals the requested sequence number and its time equals the
computed window's closing edge, regardless of how many raw points the
backend produced. -/
theorem C10_dispatch_at_most_one_point (q : Query) (seq : Int)
    (raw : Except DispatchError (List DataPoint)) (l : List DataPoint)
    (h : dispatchQuery q seq raw = .ok l) :
    l.length ≤ 1 ∧
    ∃ f t, dispatchWindow q.start q.interval seq = some (f, t) ∧
      (l = [] ∨ ∃ v, l = [⟨seq, t, v⟩]) := by
  unfold dispatchQuery at h
  split at h
  · exact absurd h (by simp)
  · next f t hw =>
    split at h
    · match raw with
      | .error e => exact absurd h (by simp)
      | .ok points =>
        simp only [Except.ok.injEq] at h
        subst h
        rcases selectPoints_shape seq t points with hs | ⟨v, hs⟩
        · exact ⟨by simp [hs], f, t, hw, Or.inl hs⟩
        · exact ⟨by simp [hs], f, t, hw, Or.inr ⟨v, hs⟩⟩
    · exact absurd h (by simp)

/-- Witness for C10: an hourly query at seq 2 against a backend returning one
point at the window's closing edge (2 hours) yields exactly that point,
renumbered with seq 2. -/
theorem C10_dispatch_at_most_one_point_witness :
    ([(⟨2, 2 * nsPerHour, 11⟩ : DataPoint)] : List DataPoint).length ≤ 1 ∧
    ∃ f t, dispatchWindow 0 queryIntervalHourly 2 = some (f, t) ∧
      (([(⟨2, 2 * nsPerHour, 11⟩ : DataPoint)] : List DataPoint) = [] ∨
        ∃ v, ([(⟨2, 2 * nsPerHour, 11⟩ : DataPoint)] : List DataPoint) = [⟨2, t, v⟩]) :=
  C10_dispatch_at_most_one_point
    ⟨1, "q", "", "hourly", 0, "grafanacloud", "prometheus", "", 0⟩ 2
    (.ok [⟨0, 2 * nsPerHour, 11⟩]) [⟨2, 2 * nsPerHour, 11⟩] (by rfl)

/-- C6 (amended): a storage error while writing a collected value does not
abort the pass: every gap of the batch is attempted whatever the dispatch and
write outcomes, and a storage failure on the first gap is counted as a soft
error while the remaining gaps are processed exactly as they would otherwise
have been; the failed sequence is left for the next pass. -/
theorem C6_storage_error_continues :
    (∀ qid dispatch st gaps,
      (monitorPass qid dispatch st gaps).attempted = gaps) ∧
    (∀ qid dispatch st g rest p, dispatch g = .returned [p] →
      storeHas st qid p.seq = true →
      monitorPass qid dispatch st (g :: rest) =
        ⟨(monitorPass qid dispatch st rest).store,
         (monitorPass qid dispatch st rest).errs + 1,
         g :: (monitorPass qid dispatch st rest).attempted⟩) := by
  constructor
  · intro qid dispatch st gaps
    induction gaps generalizing st with
    | nil => rfl
    | cons g rest ih =>
      rcases hd : dispatch g with _ | pts
      · simp [monitorPass, hd, ih]
      · match pts with
        | [] => simp [monitorPass, hd, ih]
        | [p] =>
          rcases hw : writeCollectionSeq st qid p.seq p.value false with e | st'
          · simp [monitorPass, hd, hw, ih]
          · simp [monitorPass, hd, hw, ih]
        | p :: p2 :: ps => simp [monitorPass, hd, ih]
  · intro qid dispatch st g rest p hdisp hhas
    have hw : writeCollectionSeq st qid p.seq p.value false = .error .uniqueViolation := by
      simp [writeCollectionSeq, hhas]
    simp [monitorPass, hdisp, hw]

/-- Witness for the amended C6: with seq 2 already stored, a two-gap batch
[2, 3] attempts both gaps, and the pass result is the seq-3-only pass plus
one counted error. -/
theorem C6_storage_error_continues_witness :
    (monitorPass 1 (fun s => .returned [⟨s, 0, 5⟩]) [⟨1, 2, 7⟩] [2, 3]).attempted =
      [2, 3] ∧
    monitorPass 1 (fun s => .returned [⟨s, 0, 5⟩]) [⟨1, 2, 7⟩] (2 :: [3]) =
      ⟨(monitorPass 1 (fun s => .returned [⟨s, 0, 5⟩]) [⟨1, 2, 7⟩] [3]).store,
       (monitorPass 1 (fun s => .returned [⟨s, 0, 5⟩]) [⟨1, 2, 7⟩] [3]).errs + 1,
       2 :: (monitorPass 1 (fun s => .returned [⟨s, 0, 5⟩]) [⟨1, 2, 7⟩] [3]).attempted⟩ := by
  have h := C6_storage_error_continues
  exact ⟨h.1 1 (fun s => .returned [⟨s, 0, 5⟩]) [⟨1, 2, 7⟩] [2, 3],
    h.2 1 (fun s => .returned [⟨s, 0, 5⟩]) [⟨1, 2, 7⟩] 2 [3] ⟨2, 0, 5⟩ rfl (by decide)⟩

/-- Counterexample for C6 as stated: gaps [0, 1] with seq 0 already stored
(so its write hits a constraint violation); the pass does not stop — it
continues and successfully writes seq 1, so the final store contains the
seq-1 row and both gaps were attempted, where the claim says the pass aborts
before any further gap. -/
theorem C6_storage_error_abort_counterexample :
    monitorPass 1 (fun s => .returned [⟨s, 0, 5⟩]) [⟨1, 0, 7⟩] [0, 1] =
      ⟨[⟨1, 0, 7⟩, ⟨1, 1, 5⟩], 1, [0, 1]⟩ ∧
    storeHas (monitorPass 1 (fun s => .returned [⟨s, 0, 5⟩]) [⟨1, 0, 7⟩] [0, 1]).store
      1 1 = true := by
  refine ⟨by decide, by decide⟩

/-- C8 (amended): for an unsupported interval kind the pure sequence-model
functions do not fail — SeqTime returns the zero time and SeqAfter returns
−1, both ordinary sentinel values; it is the dispatch window computation in
DispatchQuery that fails with an unsupported-interval error. -/
theorem C8_unsupported_interval_sentinels (q : Query) (seq t : Int)
    (h : intervalUnit q.interval = none) :
    seqTime q seq = 0 ∧ seqAfter q t = -1 ∧
    dispatchWindow q.start q.interval seq = none ∧
    (∀ raw, dispatchQuery q seq raw = Except.error DispatchError.invalidInterval) := by
  unfold intervalUnit at h
  split_ifs at h with h1 h2 h3
  have hw : dispatchWindow q.start q.interval seq = none := by
    simp [dispatchWindow, h1, h2, h3]
  refine ⟨by simp [seqTime, h1, h2, h3], by simp [seqAfter, h1, h2, h3], hw, ?_⟩
  intro raw
  simp [dispatchQuery, hw]

/-- Witness for the amended C8 at the unsupported interval "quarterly". -/
theorem C8_unsupported_interval_sentinels_witness :
    seqTime ⟨2, "q", "", "quarterly", 0, "", "", "", 0⟩ 2 = 0 ∧
    seqAfter ⟨2, "q", "", "quarterly", 0, "", "", "", 0⟩ 50 = -1 ∧
    dispatchWindow 0 "quarterly" 2 = none ∧
    dispatchQuery ⟨2, "q", "", "quarterly", 0, "", "", "", 0⟩ 2 (.ok []) =
      Except.error DispatchError.invalidInterval := by
  have h := C8_unsupported_interval_sentinels ⟨2, "q", "", "quarterly", 0, "", "", "", 0⟩
    2 50 (by decide)
  exact ⟨h.1, h.2.1, h.2.2.1, h.2.2.2 (.ok [])⟩

/-- Counterexample for C8 as stated: for the unsupported interval "monthly"
the sequence-model operations SeqTime and SeqAfter return plain values — the
zero time and −1 — rather than failing with an InvalidInterval error; their
Go signatures have no error result at all. -/
theorem C8_sentinel_value_counterexample :
    seqTime ⟨1, "q", "", "monthly", 0, "", "", "", 0⟩ 5 = 0 ∧
    seqAfter ⟨1, "q", "", "monthly", 0, "", "", "", 0⟩ 1000 = -1 :=
  ⟨by decide, by decide⟩

theorem secretsCall_lookup_some {cache : SecretCache} {env : String → Option String}
    {id : Int} {authType : String} {s : List (String × String)}
    (h : cache.lookup id = some s) :
    secretsCall cache env id authType = (.ok s, cache) := by
  simp [secretsCall, h]

theorem secretsCall_ok_lookup {cache cache' : SecretCache} {env : String → Option String}
    {id : Int} {authType : String} {s : List (String × String)}
    (h : secretsCall cache env id authType = (.ok s, cache')) :
    cache'.lookup id = some s := by
  unfold secretsCall at h
  split at h
  · next s0 hlk =>
    simp only [Prod.mk.injEq, Except.ok.injEq] at h
    obtain ⟨h1, h2⟩ := h
    subst h1
    subst h2
    exact hlk
  · next hlk =>
    split at h
    · exact absurd h (by simp)
    · split at h
      · exact absurd h (by simp)
      · next s0 hres =>
        simp only [Prod.mk.injEq, Except.ok.injEq] at h
        obtain ⟨h1, h2⟩ := h
        subst h1
        rw [← h2]
        simp [List.lookup]

/-- C7 (amended): provider secrets are resolved once and cached per provider
id — the id alone, not the (provider id, auth kind) pair: after a successful
call for a provider id, every later call with that id returns the cached map
unchanged whatever auth kind it names, without resolving that auth kind's
secret set; and a resolution failure for one query skips only that query —
the collector pass continues with the remaining queries from an otherwise
unchanged state. -/
theorem C7_secrets_cached_per_provider_id :
    (∀ (cache cache' : SecretCache) (env : String → Option String) (id : Int)
        (authType authType2 : String) (s : List (String × String)),
      secretsCall cache env id authType = (.ok s, cache') →
      secretsCall cache' env id authType2 = (.ok s, cache')) ∧
    (∀ (env : String → Option String) (s : CollectorState) (q : Query)
        (qs : List Query) (e : String) (cache' : SecretCache),
      secretsCall s.cache env q.providerID q.authType = (.error e, cache') →
      collectorPass env s (q :: qs) =
        collectorPass env ⟨cache', s.registry, s.launched, s.skipped ++ [q.id]⟩ qs) := by
  constructor
  · intro cache cache' env id a a2 s h
    exact secretsCall_lookup_some (secretsCall_ok_lookup h)
  · intro env s q qs e cache' h
    show collectorPass env (collectorStep env s q) qs = _
    simp only [collectorStep, h]

/-- Witness for the amended C7: with provider 7's bearer map cached, a call
naming basic_auth still returns the cached bearer map; and in a pass over two
queries where the first one's provider 9 has no secrets set, only that query
is skipped and the pass continues with the second. -/
theorem C7_secrets_cached_per_provider_id_witness :
    secretsCall [(7, [(secretTypeBearerToken, "tok")])] env0 7 authTypeBasicAuth =
      (.ok [(secretTypeBearerToken, "tok")], [(7, [(secretTypeBearerToken, "tok")])]) ∧
    collectorPass env0 ⟨[], [], [], []⟩
        [⟨9, "bad", "", "hourly", 0, "", "", "bearer_token", 9⟩,
         ⟨8, "good", "", "hourly", 0, "", "", "bearer_token", 7⟩] =
      collectorPass env0 ⟨[], [], [], [9]⟩
        [⟨8, "good", "", "hourly", 0, "", "", "bearer_token", 7⟩] := by
  have h := C7_secrets_cached_per_provider_id
  refine ⟨?_, ?_⟩
  · exact h.1 [] [(7, [(secretTypeBearerToken, "tok")])] env0 7 authTypeBearerToken
      authTypeBasicAuth [(secretTypeBearerToken, "tok")] (by rfl)
  · exact h.2 env0 ⟨[], [], [], []⟩ ⟨9, "bad", "", "hourly", 0, "", "", "bearer_token", 9⟩
      [⟨8, "good", "", "hourly", 0, "", "", "bearer_token", 7⟩]
      "missing environment variable: CARACOL_PROVIDER9_BEARER_TOKEN" [] (by rfl)

/-- Counterexample for C7 as stated: with only provider 7's bearer-token
variable set, a first call with auth kind bearer_token caches its map; a
second call with the same provider id but auth kind basic_auth returns that
cached bearer-token map rather than resolving the secret set named by
basic_auth (username and password) — whose resolution from this environment
would in fact fail. -/
theorem C7_auth_kind_ignored_counterexample :
    secretsCall [] env0 7 authTypeBearerToken =
      (.ok [(secretTypeBearerToken, "tok")], [(7, [(secretTypeBearerToken, "tok")])]) ∧
    (secretsCall [(7, [(secretTypeBearerToken, "tok")])] env0 7 authTypeBasicAuth).1 =
      .ok [(secretTypeBearerToken, "tok")] ∧
    secretEnvVarNames 7 authTypeBasicAuth =
      .ok [(secretTypeUsername, "CARACOL_PROVIDER7_USERNAME"),
        (secretTypePassword, "CARACOL_PROVIDER7_PASSWORD")] ∧
    resolveSecrets env0 [(secretTypeUsername, "CARACOL_PROVIDER7_USERNAME"),
      (secretTypePassword, "CARACOL_PROVIDER7_PASSWORD")] =
      .error "missing environment variable: CARACOL_PROVIDER7_USERNAME" := by
  exact ⟨rfl, rfl, rfl, rfl⟩

/-- C9: launching the collector's pass twice or concurrently never yields two
live monitors for the same query id: along any interleaving of atomic
insert-if-absent and delete steps a duplicate-free registry stays
duplicate-free, and a pass step for a query whose id is already registered
launches nothing and leaves the registry unchanged. -/
theorem C9_no_duplicate_monitors :
    (∀ reg reg' : List Int, Relation.ReflTransGen RegistryStep reg reg' →
      reg.Nodup → reg'.Nodup) ∧
    (∀ (env : String → Option String) (s : CollectorState) (q : Query)
        (res : List (String × String)) (cache' : SecretCache),
      secretsCall s.cache env q.providerID q.authType = (.ok res, cache') →
      s.registry.contains q.id = true →
      (collectorStep env s q).registry = s.registry ∧
      (collectorStep env s q).launched = s.launched) := by
  constructor
  · intro reg reg' hsteps hnodup
    induction hsteps with
    | refl => exact hnodup
    | tail _ step ih =>
      cases step with
      | insert id reg h => exact List.nodup_cons.mpr ⟨h, ih⟩
      | loadHit id reg h => exact ih
      | monitorExit id reg => exact ih.erase id
  · intro env s q res cache' hsec hreg
    have hmem : q.id ∈ s.registry := by simpa using hreg
    simp [collectorStep, hsec, hmem]

/-- Witness for C9: one insert step from the empty registry leaves it
duplicate-free, and a pass step for query id 3 — already registered — with
resolvable secrets launches nothing and keeps the registry [3]. -/
theorem C9_no_duplicate_monitors_witness :
    ([5] : List Int).Nodup ∧
    (collectorStep env0 ⟨[], [3], [], []⟩
      ⟨3, "q3", "", "hourly", 0, "", "", "bearer_token", 7⟩).registry = [3] ∧
    (collectorStep env0 ⟨[], [3], [], []⟩
      ⟨3, "q3", "", "hourly", 0, "", "", "bearer_token", 7⟩).launched = [] := by
  have h := C9_no_duplicate_monitors
  have h1 := h.1 [] [5]
    (Relation.ReflTransGen.single (RegistryStep.insert 5 [] (by simp))) List.nodup_nil
  have h2 := h.2 env0 ⟨[], [3], [], []⟩ ⟨3, "q3", "", "hourly", 0, "", "", "bearer_token", 7⟩
    [(secretTypeBearerToken, "tok")] [(7, [(secretTypeBearerToken, "tok")])]
    (by rfl) (by rfl)
  exact ⟨h1, h2.1, h2.2⟩

